import Mathlib

/-!
Verification of the host-side controller in src/src/host/l2_reflector.c.

The file shallowly embeds the staged resource-lifecycle orchestration of
`main` (lines 62-228) and its telemetry polling loop (lines 177-213).
Pure computations are translated directly; the three external effects the
loop observes, namely the value of the file-static flag `force_quit` at
each read, the value returned by each `time(NULL)` call, and the result of
each `flexio_process_call` counter RPC, are supplied by an environment of
read streams indexed by the number of reads of that kind performed so far.
-/

/-- Observation window constant, line 31: SIMULATION_TIME is 60. -/
def SIMULATION_TIME : Nat := 60

/-- Standard successful process exit code. -/
def EXIT_SUCCESS : Nat := 0

/-- Standard failing process exit code. -/
def EXIT_FAILURE : Nat := 1

/-- Linux signal number for the interrupt signal. -/
def SIGINT : Int := 2

/-- Linux signal number for the terminate signal. -/
def SIGTERM : Int := 15

/-- Lines 42-53: the handler sets `force_quit` to true on SIGINT or SIGTERM
and leaves the flag unchanged on any other signal number.  The function
returns the value of `force_quit` after the handler body runs. -/
def signal_handler (signum : Int) (force_quit : Bool) : Bool :=
  if signum = SIGINT ∨ signum = SIGTERM then true else force_quit

/-- Value of the `tm_sec` field of `localtime(&t)` (lines 175, 194) under the
POSIX time model: `time_t` counts seconds without leap seconds and timezone
offsets are whole minutes, so the second-of-minute is `t` modulo 60. -/
def tm_sec (t : Nat) : Nat := t % 60

/-- The four ordered resource domains of the application, in acquisition
order: stage 1 `l2_reflector_setup_ibv_device` (line 118), stage 2
`l2_reflector_setup_device` (line 126), stage 3
`l2_reflector_allocate_device_resources` (line 131), stage 4 the RX and TX
steering rules (lines 145, 152). -/
inductive Domain
  | netBinding
  | devRuntime
  | devResources
  | steeringRules
deriving DecidableEq

/-- Release calls performed from label `rule_cleanup` (lines 218-226):
steering rules, then device resources, then device, then IB device. -/
def rule_cleanup : List Domain :=
  [.steeringRules, .devResources, .devRuntime, .netBinding]

/-- Release calls performed from label `device_resources_cleanup`
(lines 220-226). -/
def device_resources_cleanup : List Domain :=
  [.devResources, .devRuntime, .netBinding]

/-- Release calls performed from label `device_cleanup` (lines 222-226). -/
def device_cleanup : List Domain :=
  [.devRuntime, .netBinding]

/-- Release calls performed from label `ibv_device_cleanup` (lines 224-226). -/
def ibv_device_cleanup : List Domain :=
  [.netBinding]

/-- Modelled from the spec: the body of `l2_reflector_destroy`, called on the
success path at line 215, is declared in l2_reflector_core.h but its
definition is not part of this repository.  Per the ShutdownCoordinator
contract it releases all four acquired domains in strict reverse
acquisition order. -/
def l2_reflector_destroy : List Domain :=
  [.steeringRules, .devResources, .devRuntime, .netBinding]

/-- Environment of external reads observed by the telemetry loop.
`force_quit n` is the value of the cancellation flag at its n-th read,
`timeAt n` the value returned by the n-th `time(NULL)` call, and `rpcAt n`
the outcome of the n-th `get_processed_packets_num` RPC (`none` models a
FLEXIO status other than success, `some v` a successful read of `v`). -/
structure Env where
  force_quit : Nat → Bool
  timeAt : Nat → Nat
  rpcAt : Nat → Option Nat

/-- Local state of the telemetry loop (lines 69-76), together with the read
cursors into the environment streams and an instrumentation trace:
`sleeps` records, for every executed `sleep(2)`, the index of the
`force_quit` read that immediately preceded it, and `writes` records the
index of every store into `packets_per_second`. -/
structure MonSt where
  last_rpc_val : Nat
  ret_rpc_val : Nat
  current_second : Nat
  packets_per_second : Nat → Int
  fi : Nat
  ti : Nat
  ri : Nat
  sleeps : List Nat
  writes : List Nat

/-- State at loop entry: all counters zero (lines 69-73), the bucket array
zero-initialised (line 70), and one `time(NULL)` read (index 0, line 173)
already consumed for `start_time`. -/
def initSt : MonSt :=
  ⟨0, 0, 0, fun _ => 0, 0, 1, 0, [], []⟩

/-- Lines 186-190: `while (!force_quit && last_rpc_val == ret_rpc_val) {
sleep(2); DOCA_LOG_INFO(...); }`.  Each evaluation of the condition reads
`force_quit` once (read index `fi`); the body changes neither variable of
the condition.  The result reports whether the wait exited through its own
condition within `fuel` iterations, the flag cursor after exit, and the
sleep trace. -/
def innerWait (force_quit : Nat → Bool) (lastv retv : Nat) :
    Nat → Nat → List Nat → Bool × Nat × List Nat
  | 0, fi, sl => (false, fi, sl)
  | fuel + 1, fi, sl =>
    if force_quit fi = false ∧ lastv = retv then
      innerWait force_quit lastv retv fuel (fi + 1) (sl ++ [fi])
    else (true, fi + 1, sl)

/-- Pointwise store into the bucket array. -/
def setBucket (b : Nat → Int) (i : Nat) (v : Int) : Nat → Int :=
  fun j => if j = i then v else b j

/-- Lines 193-201: compute `new_second` as the second-of-minute of the time
just read; if it differs from `current_second`, advance `current_second`
and zero that bucket; then overwrite the bucket with
`ret_rpc_val - last_rpc_val` and update `last_rpc_val`. -/
def bucketUpdate (t2 : Nat) (retv : Nat) (st : MonSt) : MonSt :=
  let new_second := tm_sec t2
  let stA :=
    if new_second ≠ st.current_second then
      { st with current_second := new_second,
                packets_per_second := setBucket st.packets_per_second new_second 0,
                writes := st.writes ++ [new_second] }
    else st
  { stA with
      packets_per_second :=
        setBucket stA.packets_per_second new_second
          ((retv : Int) - (st.last_rpc_val : Int)),
      last_rpc_val := retv,
      writes := stA.writes ++ [new_second] }

/-- Outcome of the telemetry loop: still inside the loop when the step
budget ran out, exited at the loop condition (`tExit = none` for a
`force_quit` exit, `some t` for a window exit with observed time `t`), or
jumped to `rule_cleanup` after a failed counter RPC (line 183). -/
inductive MonOut
  | running (st : MonSt)
  | finished (tExit : Option Nat) (st : MonSt)
  | rpcFail (st : MonSt)

/-- Lines 177-202: the outer telemetry loop.  The loop condition first reads
`force_quit` and, only if it is false, reads `time(NULL)` and compares the
elapsed time against SIMULATION_TIME (line 177).  The body issues the
counter RPC (line 179), runs the unchanged-counter wait (lines 186-190),
reads `time(NULL)` again (line 193) and performs the bucket update
(lines 194-201). -/
def monitorLoop (env : Env) (start : Nat) : Nat → MonSt → MonOut
  | 0, st => .running st
  | fuel + 1, st =>
    if env.force_quit st.fi = true then
      .finished none { st with fi := st.fi + 1 }
    else if SIMULATION_TIME ≤ env.timeAt st.ti - start then
      .finished (some (env.timeAt st.ti)) { st with fi := st.fi + 1, ti := st.ti + 1 }
    else
      match env.rpcAt st.ri with
      | none => .rpcFail { st with fi := st.fi + 1, ti := st.ti + 1, ri := st.ri + 1 }
      | some v =>
        match innerWait env.force_quit st.last_rpc_val v (fuel + 1) (st.fi + 1) st.sleeps with
        | (false, fi2, sl2) =>
            .running { st with fi := fi2, ti := st.ti + 1, ri := st.ri + 1,
                               ret_rpc_val := v, sleeps := sl2 }
        | (true, fi2, sl2) =>
            monitorLoop env start fuel
              (bucketUpdate (env.timeAt (st.ti + 1)) v
                { st with fi := fi2, ti := st.ti + 2, ri := st.ri + 1,
                          ret_rpc_val := v, sleeps := sl2 })

/-- State carried by any loop outcome. -/
def stOfOut : MonOut → MonSt
  | .running st => st
  | .finished _ st => st
  | .rpcFail st => st

/-- Whether the loop has exited (by its condition or by an RPC failure). -/
def isDone : MonOut → Bool
  | .running _ => false
  | .finished _ _ => true
  | .rpcFail _ => true

/-- Number of `sleep(2)` calls executed so far in an outcome. -/
def sleepCount (o : MonOut) : Nat := (stOfOut o).sleeps.length

/-- Final report printed at lines 204-213: the total is the last RPC value,
the average is that total divided by SIMULATION_TIME (line 205, exact
rational standing in for the C float, which is exact at the instances the
claims evaluate), and the per-second list prints indices
`0 <= i < current_second` (line 210). -/
structure Report where
  total : Nat
  avg : ℚ
  perSec : List Int
deriving DecidableEq

/-- Construction of the report from the loop state at exit. -/
def mkReport (st : MonSt) : Report :=
  ⟨st.ret_rpc_val, (st.ret_rpc_val : ℚ) / (SIMULATION_TIME : ℚ),
   (List.range st.current_second).map st.packets_per_second⟩

/-- Observable outcome of one process run: exit code, the sequence of
domain release calls, whether the SIGINT/SIGTERM handlers were installed
(lines 166-167), the report if one was printed, and the final loop state if
the telemetry phase was reached and exited. -/
structure Exited where
  code : Nat
  releases : List Domain
  handlersInstalled : Bool
  report : Option Report
  monSt : Option MonSt

/-- Lines 83-228 of `main`.  `argpOk` collapses the logger and argument
parsing setup (lines 83-115), all of which return EXIT_FAILURE before any
resource domain is acquired; `s1 s2 s3` are the outcomes of the three
acquisition calls at lines 118, 126, 131; `initOk` of the device-init RPC
at line 136; `rx tx` of the steering-rule installs at lines 145 and 152;
`runH` of `flexio_event_handler_run` at line 159.  A `none` result means
the telemetry loop had not exited within `fuel` iterations, so the process
has not exited. -/
def mainRun (argpOk s1 s2 s3 initOk rx tx runH : Bool) (env : Env)
    (fuel : Nat) : Option Exited :=
  if argpOk = false then some ⟨EXIT_FAILURE, [], false, none, none⟩
  else if s1 = false then some ⟨EXIT_FAILURE, [], false, none, none⟩
  else if s2 = false then some ⟨EXIT_FAILURE, ibv_device_cleanup, false, none, none⟩
  else if s3 = false then some ⟨EXIT_FAILURE, device_cleanup, false, none, none⟩
  else if initOk = false then some ⟨EXIT_FAILURE, device_resources_cleanup, false, none, none⟩
  else if rx = false then some ⟨EXIT_FAILURE, device_resources_cleanup, false, none, none⟩
  else if tx = false then some ⟨EXIT_FAILURE, rule_cleanup, false, none, none⟩
  else if runH = false then some ⟨EXIT_FAILURE, rule_cleanup, false, none, none⟩
  else
    match monitorLoop env (env.timeAt 0) fuel initSt with
    | .running _ => none
    | .rpcFail st => some ⟨EXIT_FAILURE, rule_cleanup, true, none, some st⟩
    | .finished _ st =>
        some ⟨EXIT_SUCCESS, l2_reflector_destroy, true, some (mkReport st), some st⟩

/-- Spec-side notion used for comparison (spec sections 3 and 8): the
prefix of domains whose acquisition fully succeeded, where acquisition of
the steering domain means both the RX and the TX rule were installed, and
the steering stage is only attempted after the device-init RPC succeeded. -/
def acquiredDomains (s1 s2 s3 initOk rx tx : Bool) : List Domain :=
  if s1 = false then []
  else if s2 = false then [.netBinding]
  else if s3 = false then [.netBinding, .devRuntime]
  else if (initOk && rx && tx) = false then [.netBinding, .devRuntime, .devResources]
  else [.netBinding, .devRuntime, .devResources, .steeringRules]

/-- Environment with a cancellation that is never requested, a wall clock
advancing by one second per observation, and a counter that never moves. -/
def c3Env : Env := ⟨fun _ => false, fun n => n, fun _ => some 0⟩

/-- The scripted counter sequence of the delta-correctness test, one value
per tick, constant after its last element. -/
def c4script : Nat → Nat := fun n => List.getD [0, 0, 5, 5, 5, 9] n 9

/-- Environment sampling the scripted sequence with no cancellation. -/
def c4Env : Env := ⟨fun _ => false, fun n => n, fun n => some (c4script n)⟩

/-- Environment for the report shape: one successful read of 9 observed at
wall-clock second 5, then cancellation. -/
def c6Env : Env := ⟨fun n => decide (2 ≤ n), fun _ => 5, fun _ => some 9⟩

/-- Environment in which cancellation is already requested at loop entry. -/
def wEnv : Env := ⟨fun _ => true, fun _ => 0, fun _ => some 0⟩

/-- Loop state after an immediate cancellation exit: only the head flag
read was consumed. -/
def wSt : MonSt := ⟨0, 0, 0, fun _ => 0, 1, 1, 0, [], []⟩

/-- Process outcome of a run in which every stage succeeded and
cancellation was already requested at loop entry. -/
def wOut : Exited :=
  ⟨EXIT_SUCCESS, l2_reflector_destroy, true, some (mkReport wSt), some wSt⟩

/-- Environment whose cancellation flag is requested from read index 1 on,
with successful counter reads. -/
def c7Env : Env := ⟨fun n => decide (1 ≤ n), fun _ => 0, fun _ => some 0⟩

/-- Read-cursor invariant for the freshness argument: `last_rpc_val` is the
initial 0 before any read, and the value of the previous read afterwards. -/
def RInv (cnt : Nat → Nat) (st : MonSt) : Prop :=
  (st.ri = 0 ∧ st.last_rpc_val = 0) ∨ ∃ m, st.ri = m + 1 ∧ st.last_rpc_val = cnt m

/-- Environment for the C3 witness: no cancellation, identity clock, and a
counter advancing by one at every read. -/
def c3wEnv : Env := ⟨fun _ => false, fun n => n, fun n => some (n + 1)⟩

/-- The bucket update leaves the RPC read cursor unchanged. -/
theorem bucketUpdate_ri (t2 retv : Nat) (st : MonSt) :
    (bucketUpdate t2 retv st).ri = st.ri := by
  simp only [bucketUpdate]; split <;> rfl

/-- The bucket update leaves the time read cursor unchanged. -/
theorem bucketUpdate_ti (t2 retv : Nat) (st : MonSt) :
    (bucketUpdate t2 retv st).ti = st.ti := by
  simp only [bucketUpdate]; split <;> rfl

/-- The bucket update leaves the flag read cursor unchanged. -/
theorem bucketUpdate_fi (t2 retv : Nat) (st : MonSt) :
    (bucketUpdate t2 retv st).fi = st.fi := by
  simp only [bucketUpdate]; split <;> rfl

/-- The bucket update leaves the sleep trace unchanged. -/
theorem bucketUpdate_sleeps (t2 retv : Nat) (st : MonSt) :
    (bucketUpdate t2 retv st).sleeps = st.sleeps := by
  simp only [bucketUpdate]; split <;> rfl

/-- The bucket update stores the read value into `last_rpc_val` (line 201). -/
theorem bucketUpdate_last (t2 retv : Nat) (st : MonSt) :
    (bucketUpdate t2 retv st).last_rpc_val = retv := by
  simp only [bucketUpdate]

/-- Every index written by one bucket update is an old write index or the
second-of-minute of the observed time. -/
theorem writes_bucketUpdate (t2 retv : Nat) (st : MonSt) :
    ∀ w ∈ (bucketUpdate t2 retv st).writes, w ∈ st.writes ∨ w = tm_sec t2 := by
  intro w hw
  simp only [bucketUpdate] at hw
  by_cases h : tm_sec t2 ≠ st.current_second
  · rw [if_pos h] at hw
    simp only [List.mem_append, List.mem_singleton] at hw
    tauto
  · rw [if_neg h] at hw
    simp only [List.mem_append, List.mem_singleton] at hw
    tauto

/-- Claim C8: delivering SIGINT or SIGTERM twice has the same effect on the
flag as delivering it once; a flag that is already true stays true through
any delivery (the handler never resets it); and the handler either sets the
flag to true or leaves it unchanged. -/
theorem c8_thm : ∀ (s : Int) (fq : Bool),
    signal_handler s (signal_handler s fq) = signal_handler s fq
    ∧ signal_handler s true = true
    ∧ (signal_handler s fq = true ∨ signal_handler s fq = fq) := by
  intro s fq
  unfold signal_handler
  by_cases h : s = SIGINT ∨ s = SIGTERM <;> simp [h]

/-- Claim C5: one execution of lines 193-201 sets `current_second` to the
second-of-minute of the observed time, overwrites exactly that bucket with
`count - last_count` regardless of the bucket's previous content, leaves
every other bucket unchanged, and stores the read value in `last_count`. -/
theorem c5_thm : ∀ (t2 retv : Nat) (st : MonSt),
    (bucketUpdate t2 retv st).current_second = tm_sec t2
    ∧ (bucketUpdate t2 retv st).packets_per_second (tm_sec t2)
        = (retv : Int) - (st.last_rpc_val : Int)
    ∧ (bucketUpdate t2 retv st).last_rpc_val = retv
    ∧ (∀ j, j ≠ tm_sec t2 →
        (bucketUpdate t2 retv st).packets_per_second j = st.packets_per_second j) := by
  intro t2 retv st
  refine ⟨?_, ?_, bucketUpdate_last t2 retv st, ?_⟩
  · simp only [bucketUpdate]
    by_cases h : tm_sec t2 ≠ st.current_second
    · rw [if_pos h]
    · rw [if_neg h]
      have h2 : tm_sec t2 = st.current_second := not_ne_iff.mp h
      exact h2.symm
  · simp only [bucketUpdate]
    by_cases h : tm_sec t2 ≠ st.current_second
    · rw [if_pos h]; simp [setBucket]
    · rw [if_neg h]; simp [setBucket]
  · intro j hj
    simp only [bucketUpdate]
    by_cases h : tm_sec t2 ≠ st.current_second
    · rw [if_pos h]; simp [setBucket, hj]
    · rw [if_neg h]; simp [setBucket, hj]

/-- Witness for C5 at a concrete input: updating at time 5 with count 9
stores the delta 9 into bucket 5, reports second 5, and leaves the
untouched bucket 3 unchanged. -/
theorem c5_witness :
    (bucketUpdate 5 9 initSt).current_second = tm_sec 5
    ∧ (bucketUpdate 5 9 initSt).packets_per_second (tm_sec 5)
        = ((9 : Nat) : Int) - ((initSt.last_rpc_val : Nat) : Int)
    ∧ (bucketUpdate 5 9 initSt).packets_per_second 3 = initSt.packets_per_second 3 :=
  ⟨(c5_thm 5 9 initSt).1, (c5_thm 5 9 initSt).2.1,
   (c5_thm 5 9 initSt).2.2.2 3 (by decide)⟩

/-- Claim C3, counterexample: with cancellation never requested and a
counter that never advances, the loop does not stop at the observation
window: after 100 executed sleeps of 2 seconds each (200 seconds of wall
time, far beyond the 60-second window) the loop is still inside the
unchanged-counter wait of lines 186-190 and has not reached the final
report. -/
theorem c3_cex :
    isDone (monitorLoop c3Env 0 100 initSt) = false
    ∧ sleepCount (monitorLoop c3Env 0 100 initSt) = 100 := by
  constructor <;> rfl

/-- Claim C4, failing execution: sampling the scripted counter sequence
[0,0,5,5,5,9] one value per tick with cancellation never requested, the
very first read returns 0, equal to the initial `last_rpc_val`, so the
wait of lines 186-190 never exits (its body changes neither variable of
its condition): after 100 sleeps the loop is still waiting and no delta
was ever derived. -/
theorem c4_bug :
    isDone (monitorLoop c4Env 0 100 initSt) = false
    ∧ sleepCount (monitorLoop c4Env 0 100 initSt) = 100 := by
  constructor <;> rfl

/-- Claim C1, counterexample: when the TX steering rule fails after the RX
rule succeeded (stage 4 acquisition did not succeed), the code jumps to
`rule_cleanup` (line 156), whose four release calls include the steering
domain, so the released list is not the reverse of the successfully
acquired prefix, which has three domains. -/
theorem c1_cex :
    (mainRun true true true true true true false true c3Env 0).map Exited.releases
      = some rule_cleanup
    ∧ (rule_cleanup.contains Domain.steeringRules) = true
    ∧ ((acquiredDomains true true true true true false).contains Domain.steeringRules) = false
    ∧ rule_cleanup.length = 4
    ∧ (acquiredDomains true true true true true false).reverse.length = 3 := by
  refine ⟨rfl, by decide, by decide, by decide, by decide⟩

/-- Claim C6, counterexample: in a run whose only touched bucket is second
5 (delta 9) the printed per-second list covers indices 0 through 4 only
(line 210 iterates `i < current_second`), omitting the touched bucket 5. -/
theorem c6_cex :
    ((mainRun true true true true true true true true c6Env 2).map
        (fun o => o.report.map Report.perSec)) = some (some [0, 0, 0, 0, 0])
    ∧ ((mainRun true true true true true true true true c6Env 2).map
        (fun o => o.monSt.map
          (fun s => (s.packets_per_second 5, s.current_second)))) = some (some (9, 5)) := by
  constructor <;> rfl

/-- Invariant carrier for the write bound: if every recorded write index is
below 60 at entry, the same holds at any outcome of the loop. -/
theorem monitor_writes_aux (env : Env) (start : Nat) :
    ∀ fuel st, (∀ w ∈ st.writes, w < 60) →
      ∀ w ∈ (stOfOut (monitorLoop env start fuel st)).writes, w < 60 := by
  intro fuel
  induction fuel with
  | zero =>
    intro st h w hw
    exact h w hw
  | succ f ih =>
    intro st h w hw
    unfold monitorLoop at hw
    by_cases h1 : env.force_quit st.fi = true
    · rw [if_pos h1] at hw
      exact h w hw
    · rw [if_neg h1] at hw
      by_cases h2 : SIMULATION_TIME ≤ env.timeAt st.ti - start
      · rw [if_pos h2] at hw
        exact h w hw
      · rw [if_neg h2] at hw
        split at hw
        · exact h w hw
        · split at hw
          · exact h w hw
          · refine ih _ ?_ w hw
            intro u hu
            rcases writes_bucketUpdate _ _ _ u hu with hin | hsec
            · exact h u hin
            · rw [hsec]
              exact Nat.mod_lt _ (by norm_num)

/-- Claim C9: every store into the 60-slot `packets_per_second` array uses
an index below 60, because the index is the `tm_sec` of the observed time,
which under the POSIX time model is the time modulo 60. -/
theorem c9_thm : ∀ (env : Env) (start fuel w : Nat),
    w ∈ (stOfOut (monitorLoop env start fuel initSt)).writes → w < 60 := by
  intro env start fuel w hw
  exact monitor_writes_aux env start fuel initSt (by simp [initSt]) w hw

/-- Witness for C9: in the concrete run that touches bucket 5, index 5 is
recorded as written and is below 60. -/
theorem c9_witness :
    (5 ∈ (stOfOut (monitorLoop c6Env 5 2 initSt)).writes) ∧ (5 : Nat) < 60 :=
  ⟨by decide, c9_thm c6Env 5 2 5 (by decide)⟩

/-- Unfolding of the loop when the head read of `force_quit` is true. -/
theorem monitorLoop_eq_flag (env : Env) (start fuel : Nat) (st : MonSt)
    (h : env.force_quit st.fi = true) :
    monitorLoop env start (fuel + 1) st = .finished none { st with fi := st.fi + 1 } := by
  unfold monitorLoop
  rw [if_pos h]

/-- Unfolding of the loop when the elapsed time has reached the window. -/
theorem monitorLoop_eq_window (env : Env) (start fuel : Nat) (st : MonSt)
    (h1 : env.force_quit st.fi = false)
    (h2 : SIMULATION_TIME ≤ env.timeAt st.ti - start) :
    monitorLoop env start (fuel + 1) st
      = .finished (some (env.timeAt st.ti)) { st with fi := st.fi + 1, ti := st.ti + 1 } := by
  unfold monitorLoop
  rw [if_neg (by simp [h1]), if_pos h2]

/-- Unfolding of the loop when the counter RPC fails. -/
theorem monitorLoop_eq_rpcfail (env : Env) (start fuel : Nat) (st : MonSt)
    (h1 : env.force_quit st.fi = false)
    (h2 : ¬ SIMULATION_TIME ≤ env.timeAt st.ti - start)
    (hr : env.rpcAt st.ri = none) :
    monitorLoop env start (fuel + 1) st
      = .rpcFail { st with fi := st.fi + 1, ti := st.ti + 1, ri := st.ri + 1 } := by
  unfold monitorLoop
  rw [if_neg (by simp [h1]), if_neg h2]
  simp only [hr]

/-- Unfolding of the loop when the unchanged-counter wait runs out of step
budget. -/
theorem monitorLoop_eq_wait_false (env : Env) (start fuel : Nat) (st : MonSt)
    (v fi2 : Nat) (sl2 : List Nat)
    (h1 : env.force_quit st.fi = false)
    (h2 : ¬ SIMULATION_TIME ≤ env.timeAt st.ti - start)
    (hr : env.rpcAt st.ri = some v)
    (hiw : innerWait env.force_quit st.last_rpc_val v (fuel + 1) (st.fi + 1) st.sleeps
             = (false, fi2, sl2)) :
    monitorLoop env start (fuel + 1) st
      = .running { st with fi := fi2, ti := st.ti + 1, ri := st.ri + 1,
                           ret_rpc_val := v, sleeps := sl2 } := by
  unfold monitorLoop
  rw [if_neg (by simp [h1]), if_neg h2]
  simp only [hr, hiw]

/-- Unfolding of the loop when the unchanged-counter wait exits and the
loop body completes an iteration. -/
theorem monitorLoop_eq_wait_true (env : Env) (start fuel : Nat) (st : MonSt)
    (v fi2 : Nat) (sl2 : List Nat)
    (h1 : env.force_quit st.fi = false)
    (h2 : ¬ SIMULATION_TIME ≤ env.timeAt st.ti - start)
    (hr : env.rpcAt st.ri = some v)
    (hiw : innerWait env.force_quit st.last_rpc_val v (fuel + 1) (st.fi + 1) st.sleeps
             = (true, fi2, sl2)) :
    monitorLoop env start (fuel + 1) st
      = monitorLoop env start fuel
          (bucketUpdate (env.timeAt (st.ti + 1)) v
            { st with fi := fi2, ti := st.ti + 2, ri := st.ri + 1,
                      ret_rpc_val := v, sleeps := sl2 }) := by
  unfold monitorLoop
  rw [if_neg (by simp [h1]), if_neg h2]
  simp only [hr, hiw]
  rw [monitorLoop.eq_def]

/-- A wait that exits by its own condition exits the same way with one more
unit of step budget. -/
theorem innerWait_mono (flag : Nat → Bool) (lastv retv : Nat) :
    ∀ fuel fi sl a b, innerWait flag lastv retv fuel fi sl = (true, a, b) →
      innerWait flag lastv retv (fuel + 1) fi sl = (true, a, b) := by
  intro fuel
  induction fuel with
  | zero =>
    intro fi sl a b h
    simp [innerWait] at h
  | succ f ih =>
    intro fi sl a b h
    unfold innerWait at h ⊢
    by_cases hc : flag fi = false ∧ lastv = retv
    · rw [if_pos hc] at h ⊢
      exact ih _ _ _ _ h
    · rw [if_neg hc] at h ⊢
      exact h

/-- A wait that exits by its own condition exits the same way with any
larger step budget. -/
theorem innerWait_mono_le (flag : Nat → Bool) (lastv retv : Nat)
    (fuel fuel2 fi : Nat) (sl : List Nat) (a : Nat) (b : List Nat)
    (hle : fuel ≤ fuel2)
    (h : innerWait flag lastv retv fuel fi sl = (true, a, b)) :
    innerWait flag lastv retv fuel2 fi sl = (true, a, b) := by
  induction hle with
  | refl => exact h
  | step _ ih => exact innerWait_mono flag lastv retv _ fi sl a b ih

/-- A loop run that has exited gives the same outcome with one more unit of
step budget. -/
theorem monitorLoop_mono (env : Env) (start : Nat) :
    ∀ fuel st o, monitorLoop env start fuel st = o → isDone o = true →
      monitorLoop env start (fuel + 1) st = o := by
  intro fuel
  induction fuel with
  | zero =>
    intro st o h hd
    rw [← h] at hd
    simp [monitorLoop, isDone] at hd
  | succ f ih =>
    intro st o h hd
    by_cases h1 : env.force_quit st.fi = true
    · rw [monitorLoop_eq_flag env start f st h1] at h
      rw [monitorLoop_eq_flag env start (f + 1) st h1]
      exact h
    · have h1' : env.force_quit st.fi = false := by
        simpa using h1
      by_cases h2 : SIMULATION_TIME ≤ env.timeAt st.ti - start
      · rw [monitorLoop_eq_window env start f st h1' h2] at h
        rw [monitorLoop_eq_window env start (f + 1) st h1' h2]
        exact h
      · rcases hr : env.rpcAt st.ri with _ | v
        · rw [monitorLoop_eq_rpcfail env start f st h1' h2 hr] at h
          rw [monitorLoop_eq_rpcfail env start (f + 1) st h1' h2 hr]
          exact h
        · rcases hiw : innerWait env.force_quit st.last_rpc_val v (f + 1) (st.fi + 1) st.sleeps
            with ⟨e, fi2, sl2⟩
          cases e
          · rw [monitorLoop_eq_wait_false env start f st v fi2 sl2 h1' h2 hr hiw] at h
            rw [← h] at hd
            simp [isDone] at hd
          · have hiw2 := innerWait_mono env.force_quit st.last_rpc_val v (f + 1) (st.fi + 1)
              st.sleeps fi2 sl2 hiw
            rw [monitorLoop_eq_wait_true env start f st v fi2 sl2 h1' h2 hr hiw] at h
            rw [monitorLoop_eq_wait_true env start (f + 1) st v fi2 sl2 h1' h2 hr hiw2]
            exact ih _ _ h hd

/-- A loop run that has exited gives the same outcome with any larger step
budget. -/
theorem monitorLoop_mono_le (env : Env) (start : Nat) (fuel fuel2 : Nat) (st : MonSt)
    (o : MonOut) (hle : fuel ≤ fuel2) (h : monitorLoop env start fuel st = o)
    (hd : isDone o = true) :
    monitorLoop env start fuel2 st = o := by
  induction hle with
  | refl => exact h
  | step _ ih => exact monitorLoop_mono env start _ st o ih hd

/-- Monotone-flag propagation: once the flag reads true at index k it reads
true at every later index. -/
theorem flag_true_of_ge (flag : Nat → Bool)
    (hm : ∀ n, flag n = true → flag (n + 1) = true) (k : Nat) (hk : flag k = true) :
    ∀ j, k ≤ j → flag j = true := by
  intro j hj
  induction hj with
  | refl => exact hk
  | step _ ih => exact hm _ ih

/-- Under a monotone flag that is true at read k, the unchanged-counter
wait exits within k + 1 iterations, advances the flag cursor, and every
sleep it adds happened at a read where the flag was still false. -/
theorem innerWait_cancel (flag : Nat → Bool)
    (hm : ∀ n, flag n = true → flag (n + 1) = true) (k : Nat) (hk : flag k = true)
    (lastv retv : Nat) :
    ∀ fuel fi sl, 1 ≤ fuel → k + 1 ≤ fuel + fi →
      ∃ fi2 sl2, innerWait flag lastv retv fuel fi sl = (true, fi2, sl2)
        ∧ fi + 1 ≤ fi2
        ∧ ∀ j ∈ sl2, j ∈ sl ∨ flag j = false := by
  intro fuel
  induction fuel with
  | zero =>
    intro fi sl h1 _
    omega
  | succ f ih =>
    intro fi sl _ hsum
    by_cases hc : flag fi = false ∧ lastv = retv
    · have hfi : fi < k := by
        by_contra hh
        push_neg at hh
        have := flag_true_of_ge flag hm k hk fi hh
        rw [hc.1] at this
        exact Bool.false_ne_true this
      have hf1 : 1 ≤ f := by omega
      obtain ⟨fi2, sl2, hrec, hge, hmem⟩ := ih (fi + 1) (sl ++ [fi]) hf1 (by omega)
      refine ⟨fi2, sl2, ?_, by omega, ?_⟩
      · unfold innerWait
        rw [if_pos hc]
        exact hrec
      · intro j hj
        rcases hmem j hj with hin | hfl
        · rcases List.mem_append.mp hin with h | h
          · exact Or.inl h
          · rw [List.mem_singleton.mp h]
            exact Or.inr hc.1
        · exact Or.inr hfl
    · refine ⟨fi + 1, sl, ?_, le_refl _, fun j hj => Or.inl hj⟩
      unfold innerWait
      rw [if_neg hc]

/-- Main induction for C7: with a monotone flag that is true at read k,
from any state whose recorded sleeps all happened at false reads and whose
flag cursor is within m of k, the loop exits, and every recorded sleep of
the whole run happened at a read where the flag was still false. -/
theorem c7_aux (env : Env) (start k : Nat)
    (hm : ∀ n, env.force_quit n = true → env.force_quit (n + 1) = true)
    (hk : env.force_quit k = true) :
    ∀ m st, k + 1 ≤ st.fi + m →
      (∀ j ∈ st.sleeps, env.force_quit j = false) →
      ∃ fuel o, monitorLoop env start fuel st = o ∧ isDone o = true
        ∧ ∀ j ∈ (stOfOut o).sleeps, env.force_quit j = false := by
  intro m
  induction m using Nat.strong_induction_on with
  | _ m ih =>
    intro st hfi hsl
    by_cases h1 : env.force_quit st.fi = true
    · refine ⟨1, _, monitorLoop_eq_flag env start 0 st h1, rfl, ?_⟩
      simpa [stOfOut] using hsl
    · have h1' : env.force_quit st.fi = false := by simpa using h1
      by_cases h2 : SIMULATION_TIME ≤ env.timeAt st.ti - start
      · refine ⟨1, _, monitorLoop_eq_window env start 0 st h1' h2, rfl, ?_⟩
        simpa [stOfOut] using hsl
      · rcases hr : env.rpcAt st.ri with _ | v
        · refine ⟨1, _, monitorLoop_eq_rpcfail env start 0 st h1' h2 hr, rfl, ?_⟩
          simpa [stOfOut] using hsl
        · have hfik : st.fi < k := by
            by_contra hh
            push_neg at hh
            have := flag_true_of_ge env.force_quit hm k hk st.fi hh
            rw [h1'] at this
            exact Bool.false_ne_true this
          obtain ⟨fi2, sl2, hiw, hge, hmem⟩ :=
            innerWait_cancel env.force_quit hm k hk st.last_rpc_val v
              (k + 1) (st.fi + 1) st.sleeps (by omega) (by omega)
          have hm2 : m - 1 < m := by omega
          obtain ⟨fuel2, o, hrun, hdone, hsl2⟩ :=
            ih (m - 1) hm2
              (bucketUpdate (env.timeAt (st.ti + 1)) v
                { st with fi := fi2, ti := st.ti + 2, ri := st.ri + 1,
                          ret_rpc_val := v, sleeps := sl2 })
              (by simp only [bucketUpdate_fi]; omega)
              (by rw [bucketUpdate_sleeps]
                  intro j hj
                  rcases hmem j hj with hin | hfl
                  · exact hsl j hin
                  · exact hfl)
          refine ⟨max (fuel2 + 1) (k + 2), o, ?_, hdone, hsl2⟩
          obtain ⟨f, hf⟩ : ∃ f, max (fuel2 + 1) (k + 2) = f + 1 :=
            ⟨max (fuel2 + 1) (k + 2) - 1, by omega⟩
          rw [hf]
          have hiw2 : innerWait env.force_quit st.last_rpc_val v (f + 1) (st.fi + 1)
              st.sleeps = (true, fi2, sl2) :=
            innerWait_mono_le env.force_quit st.last_rpc_val v (k + 1) (f + 1)
              (st.fi + 1) st.sleeps fi2 sl2 (by omega) hiw
          rw [monitorLoop_eq_wait_true env start f st v fi2 sl2 h1' h2 hr hiw2]
          exact monitorLoop_mono_le env start fuel2 f _ o (by omega) hrun hdone

/-- Claim C7: if cancellation is requested, that is, the flag (monotone
over successive reads) is true from read k on, the telemetry loop exits,
and every sleep of the whole run happened at a read where the flag was
still false and before read k: no sleep follows the first read observing
the cancellation, so at most the single sleep already in progress when the
flag flips separates the request from the exit, and both the outer
condition and the wait condition observe the flag at their next read. -/
theorem c7_thm : ∀ (env : Env) (start k : Nat),
    (∀ n, env.force_quit n = true → env.force_quit (n + 1) = true) →
    env.force_quit k = true →
    ∃ fuel o, monitorLoop env start fuel initSt = o ∧ isDone o = true
      ∧ ∀ j ∈ (stOfOut o).sleeps, env.force_quit j = false ∧ j < k := by
  intro env start k hm hk
  obtain ⟨fuel, o, hrun, hdone, hsl⟩ :=
    c7_aux env start k hm hk (k + 1) initSt (by show k + 1 ≤ 0 + (k + 1); omega)
      (by intro j hj; simp [initSt] at hj)
  refine ⟨fuel, o, hrun, hdone, ?_⟩
  intro j hj
  have hfl := hsl j hj
  refine ⟨hfl, ?_⟩
  by_contra hh
  push_neg at hh
  have := flag_true_of_ge env.force_quit hm k hk j hh
  rw [hfl] at this
  exact Bool.false_ne_true this

/-- Witness for C7 at a concrete input: with cancellation requested from
flag read 1 on, the loop exits and performs no sleep at or after read 1. -/
theorem c7_witness :
    ∃ fuel o, monitorLoop c7Env 0 fuel initSt = o ∧ isDone o = true
      ∧ ∀ j ∈ (stOfOut o).sleeps, c7Env.force_quit j = false ∧ j < 1 :=
  c7_thm c7Env 0 1 (by intro n h; simp [c7Env]) (by decide)

/-- Main induction for the amended C3: with no cancellation, every read
fresh, and a monotone clock that passes the window by read N, the loop
exits at its time check from any state satisfying the read invariant. -/
theorem c3_aux (env : Env) (cnt : Nat → Nat) (N : Nat)
    (hq : ∀ n, env.force_quit n = false)
    (hr : ∀ n, env.rpcAt n = some (cnt n))
    (h0 : cnt 0 ≠ 0)
    (hfresh : ∀ n, cnt (n + 1) ≠ cnt n)
    (hmono : ∀ a b, a ≤ b → env.timeAt a ≤ env.timeAt b)
    (hN : env.timeAt 0 + SIMULATION_TIME ≤ env.timeAt N) :
    ∀ d st, RInv cnt st → N ≤ st.ti + d →
      ∃ fuel t st2, monitorLoop env (env.timeAt 0) fuel st = .finished (some t) st2
        ∧ env.timeAt 0 + SIMULATION_TIME ≤ t := by
  intro d
  induction d using Nat.strong_induction_on with
  | _ d ih =>
    intro st hInv hd
    by_cases ht : SIMULATION_TIME ≤ env.timeAt st.ti - env.timeAt 0
    · refine ⟨1, env.timeAt st.ti, _,
        monitorLoop_eq_window env (env.timeAt 0) 0 st (hq st.fi) ht, ?_⟩
      simp only [SIMULATION_TIME] at ht ⊢
      omega
    · have htiN : st.ti < N := by
        by_contra hh
        push_neg at hh
        have := hmono N st.ti hh
        omega
      have hdpos : 1 ≤ d := by omega
      have hv : cnt st.ri ≠ st.last_rpc_val := by
        rcases hInv with ⟨h1, h2⟩ | ⟨m, h1, h2⟩
        · rw [h1, h2]
          exact h0
        · rw [h1, h2]
          exact hfresh m
      obtain ⟨fuel2, t, st2, hrun, hge⟩ :=
        ih (d - 1) (by omega)
          (bucketUpdate (env.timeAt (st.ti + 1)) (cnt st.ri)
            { st with fi := st.fi + 2, ti := st.ti + 2, ri := st.ri + 1,
                      ret_rpc_val := cnt st.ri, sleeps := st.sleeps })
          (Or.inr ⟨st.ri, by simp [bucketUpdate_ri], by simp [bucketUpdate_last]⟩)
          (by simp only [bucketUpdate_ti]; omega)
      refine ⟨fuel2 + 1, t, st2, ?_, hge⟩
      have hiw : innerWait env.force_quit st.last_rpc_val (cnt st.ri) (fuel2 + 1)
          (st.fi + 1) st.sleeps = (true, st.fi + 2, st.sleeps) := by
        unfold innerWait
        rw [if_neg]
        intro hcon
        exact hv hcon.2.symm
      rw [monitorLoop_eq_wait_true env (env.timeAt 0) fuel2 st (cnt st.ri) (st.fi + 2)
            st.sleeps (hq st.fi) ht (hr st.ri) hiw]
      exact hrun

/-- Claim C3 (amended): provided cancellation is never requested, every
counter read returns a value different from the previous one (without this
the unchanged-counter wait of lines 186-190 never exits, as the
counterexample shows), and the wall clock is monotone and eventually
passes the observation window, the loop stops polling at its time check
and proceeds to the final report once the observed elapsed time reaches
SIMULATION_TIME. -/
theorem c3_amended : ∀ (env : Env) (cnt : Nat → Nat) (N : Nat),
    (∀ n, env.force_quit n = false) →
    (∀ n, env.rpcAt n = some (cnt n)) →
    cnt 0 ≠ 0 →
    (∀ n, cnt (n + 1) ≠ cnt n) →
    (∀ a b, a ≤ b → env.timeAt a ≤ env.timeAt b) →
    env.timeAt 0 + SIMULATION_TIME ≤ env.timeAt N →
    ∃ fuel t st2, monitorLoop env (env.timeAt 0) fuel initSt = .finished (some t) st2
      ∧ env.timeAt 0 + SIMULATION_TIME ≤ t := by
  intro env cnt N hq hr h0 hfresh hmono hN
  exact c3_aux env cnt N hq hr h0 hfresh hmono hN N initSt (Or.inl ⟨rfl, rfl⟩)
    (by show N ≤ 1 + N; omega)

/-- Witness for the amended C3 at a concrete input: identity clock crossing
the window at read 60, counter advancing at every read. -/
theorem c3_witness :
    ∃ fuel t st2,
      monitorLoop c3wEnv (c3wEnv.timeAt 0) fuel initSt = .finished (some t) st2
      ∧ c3wEnv.timeAt 0 + SIMULATION_TIME ≤ t :=
  c3_amended c3wEnv (fun n => n + 1) 60 (fun _ => rfl) (fun _ => rfl) (by decide)
    (by intro n; show n + 1 + 1 ≠ n + 1; omega) (fun a b h => h) (by decide)

/-- Unfolding of `mainRun` on the all-successful path down to the loop. -/
theorem mainRun_eq_monitor (env : Env) (fuel : Nat) :
    mainRun true true true true true true true true env fuel =
      match monitorLoop env (env.timeAt 0) fuel initSt with
      | .running _ => none
      | .rpcFail st => some ⟨EXIT_FAILURE, rule_cleanup, true, none, some st⟩
      | .finished _ st =>
          some ⟨EXIT_SUCCESS, l2_reflector_destroy, true, some (mkReport st), some st⟩ := by
  rfl

/-- Any run in which some setup step, acquisition stage, the device-init
RPC, a steering rule, or the event-handler launch failed exits with
EXIT_FAILURE before the handlers are installed and before any report. -/
theorem mainRun_early :
    ∀ (a s1 s2 s3 i rx tx rh : Bool) (env : Env) (fuel : Nat) (out : Exited),
      mainRun a s1 s2 s3 i rx tx rh env fuel = some out →
      (a && s1 && s2 && s3 && i && rx && tx && rh) = false →
      out.code = EXIT_FAILURE ∧ out.handlersInstalled = false
        ∧ out.report = none ∧ out.monSt = none := by
  intro a s1 s2 s3 i rx tx rh env fuel out h hf
  cases a <;> cases s1 <;> cases s2 <;> cases s3 <;> cases i <;> cases rx <;> cases tx <;>
    cases rh <;> simp_all [mainRun] <;> subst h <;> exact ⟨rfl, rfl, rfl, rfl⟩

/-- Claim C1 (amended): for every execution that exits, the release list is
the exact reverse of the prefix of domains whose acquisition succeeded,
with one exception forced by the code: when the TX steering rule fails
after the RX rule was installed (line 156), the partially acquired
steering domain is also released, first, before the reversed prefix.  In
particular a stage-3 failure after stages 1-2 releases exactly domain 2
then domain 1 and never domains 3-4. -/
theorem c1_amended :
    ∀ (a s1 s2 s3 i rx tx rh : Bool) (env : Env) (fuel : Nat) (out : Exited),
      mainRun a s1 s2 s3 i rx tx rh env fuel = some out → a = true →
      out.releases =
        (if (s1 && s2 && s3 && i && rx && !tx) = true
         then Domain.steeringRules :: (acquiredDomains s1 s2 s3 i rx tx).reverse
         else (acquiredDomains s1 s2 s3 i rx tx).reverse) := by
  intro a s1 s2 s3 i rx tx rh env fuel out h ha
  subst ha
  by_cases hall : s1 = true ∧ s2 = true ∧ s3 = true ∧ i = true ∧ rx = true
      ∧ tx = true ∧ rh = true
  · obtain ⟨rfl, rfl, rfl, rfl, rfl, rfl, rfl⟩ := hall
    rcases hm : monitorLoop env (env.timeAt 0) fuel initSt with st2 | ⟨tE, st2⟩ | st2 <;>
      rw [mainRun_eq_monitor] at h <;> simp only [hm] at h
    · exact absurd h (by simp)
    · obtain rfl := Option.some.inj h
      show l2_reflector_destroy =
        (if (true && true && true && true && true && !true) = true
         then Domain.steeringRules :: (acquiredDomains true true true true true true).reverse
         else (acquiredDomains true true true true true true).reverse)
      decide
    · obtain rfl := Option.some.inj h
      show rule_cleanup =
        (if (true && true && true && true && true && !true) = true
         then Domain.steeringRules :: (acquiredDomains true true true true true true).reverse
         else (acquiredDomains true true true true true true).reverse)
      decide
  · cases s1 <;> cases s2 <;> cases s3 <;> cases i <;> cases rx <;> cases tx <;> cases rh <;>
      simp_all [mainRun] <;> subst h <;> decide

/-- Witness for the amended C1 at a concrete input: a stage-3 failure after
stages 1-2 releases domain 2 then domain 1, the reverse of the acquired
prefix. -/
theorem c1_witness :
    (Exited.releases ⟨EXIT_FAILURE, device_cleanup, false, none, none⟩) =
      (if (true && true && false && true && true && !true) = true
       then Domain.steeringRules :: (acquiredDomains true true false true true true).reverse
       else (acquiredDomains true true false true true true).reverse) :=
  c1_amended true true true false true true true true wEnv 0
    ⟨EXIT_FAILURE, device_cleanup, false, none, none⟩ rfl rfl

/-- Claim C2: the process exits with EXIT_SUCCESS exactly when setup, all
four acquisition stages, the device-init RPC and the launch succeeded and
the telemetry loop exited at its own condition (window elapsed or
cancellation); every acquisition, launch, or counter-RPC failure exits
with EXIT_FAILURE. -/
theorem c2_thm :
    ∀ (a s1 s2 s3 i rx tx rh : Bool) (env : Env) (fuel : Nat) (out : Exited),
      mainRun a s1 s2 s3 i rx tx rh env fuel = some out →
      (out.code = EXIT_SUCCESS ↔
        ((a && s1 && s2 && s3 && i && rx && tx && rh) = true
         ∧ ∃ tE st, monitorLoop env (env.timeAt 0) fuel initSt = .finished tE st)) := by
  intro a s1 s2 s3 i rx tx rh env fuel out h
  by_cases hb : (a && s1 && s2 && s3 && i && rx && tx && rh) = true
  · simp only [Bool.and_eq_true] at hb
    obtain ⟨⟨⟨⟨⟨⟨⟨rfl, rfl⟩, rfl⟩, rfl⟩, rfl⟩, rfl⟩, rfl⟩, rfl⟩ := hb
    rcases hm : monitorLoop env (env.timeAt 0) fuel initSt with st2 | ⟨tE, st2⟩ | st2 <;>
      rw [mainRun_eq_monitor] at h <;> simp only [hm] at h
    · exact absurd h (by simp)
    · obtain rfl := Option.some.inj h
      simp [EXIT_SUCCESS]
    · obtain rfl := Option.some.inj h
      simp [EXIT_SUCCESS, EXIT_FAILURE]
  · have hb' : (a && s1 && s2 && s3 && i && rx && tx && rh) = false := by
      simpa using hb
    obtain ⟨hc, _, _, _⟩ := mainRun_early a s1 s2 s3 i rx tx rh env fuel out h hb'
    rw [hc, hb']
    simp [EXIT_SUCCESS, EXIT_FAILURE]

/-- Witness for C2 at a concrete input: all stages succeed and cancellation
is requested at loop entry, so the process exits 0. -/
theorem c2_witness :
    wOut.code = EXIT_SUCCESS ↔
      ((true && true && true && true && true && true && true && true) = true
       ∧ ∃ tE st, monitorLoop wEnv (wEnv.timeAt 0) 1 initSt = .finished tE st) :=
  c2_thm true true true true true true true true wEnv 1 wOut rfl

/-- Claim C6 (amended): whenever the loop exits at its own condition the
process emits a report whose average is total divided by SIMULATION_TIME
(600 packets over the 60-unit window give exactly 10), and whose
per-second list contains precisely the buckets with index strictly below
the final `current_second`, the last second touched; the bucket at
`current_second` itself is omitted by the print loop at line 210. -/
theorem c6_amended :
    ∀ (a s1 s2 s3 i rx tx rh : Bool) (env : Env) (fuel : Nat) (out : Exited)
      (r : Report) (st : MonSt),
      mainRun a s1 s2 s3 i rx tx rh env fuel = some out →
      out.report = some r → out.monSt = some st →
      r.avg = (r.total : ℚ) / (SIMULATION_TIME : ℚ)
      ∧ r.perSec = (List.range st.current_second).map st.packets_per_second
      ∧ r.perSec.length = st.current_second
      ∧ (r.total = 600 → r.avg = 10) := by
  intro a s1 s2 s3 i rx tx rh env fuel out r st h hrep hmon
  by_cases hb : (a && s1 && s2 && s3 && i && rx && tx && rh) = true
  · simp only [Bool.and_eq_true] at hb
    obtain ⟨⟨⟨⟨⟨⟨⟨rfl, rfl⟩, rfl⟩, rfl⟩, rfl⟩, rfl⟩, rfl⟩, rfl⟩ := hb
    rcases hm : monitorLoop env (env.timeAt 0) fuel initSt with st2 | ⟨tE, st2⟩ | st2 <;>
      rw [mainRun_eq_monitor] at h <;> simp only [hm] at h
    · exact absurd h (by simp)
    · obtain rfl := Option.some.inj h
      obtain rfl := Option.some.inj hrep
      obtain rfl := Option.some.inj hmon
      refine ⟨rfl, rfl, by simp [mkReport], ?_⟩
      intro h6
      simp only [mkReport] at h6 ⊢
      rw [h6]
      norm_num [SIMULATION_TIME]
    · obtain rfl := Option.some.inj h
      exact absurd hrep (by simp)
  · have hb' : (a && s1 && s2 && s3 && i && rx && tx && rh) = false := by
      simpa using hb
    obtain ⟨_, _, hrn, _⟩ := mainRun_early a s1 s2 s3 i rx tx rh env fuel out h hb'
    rw [hrn] at hrep
    exact absurd hrep (by simp)

/-- Witness for the amended C6 at a concrete input: an immediate
cancellation exit reports average total divided by the window and lists
exactly the buckets below the final current second. -/
theorem c6_witness :
    (mkReport wSt).avg = ((mkReport wSt).total : ℚ) / (SIMULATION_TIME : ℚ)
    ∧ (mkReport wSt).perSec
        = (List.range wSt.current_second).map wSt.packets_per_second
    ∧ (mkReport wSt).perSec.length = wSt.current_second :=
  ⟨(c6_amended true true true true true true true true wEnv 1 wOut (mkReport wSt) wSt
      rfl rfl rfl).1,
   (c6_amended true true true true true true true true wEnv 1 wOut (mkReport wSt) wSt
      rfl rfl rfl).2.1,
   (c6_amended true true true true true true true true wEnv 1 wOut (mkReport wSt) wSt
      rfl rfl rfl).2.2.1⟩

/-- Claim C10: the SIGINT/SIGTERM handlers are installed (lines 166-167)
exactly in those runs in which setup, all four acquisition stages, the
device-init RPC and the event-handler launch succeeded, and any run that
reached the telemetry phase had the handlers installed: the cancellation
flag is never consulted during acquisition or launch. -/
theorem c10_thm :
    ∀ (a s1 s2 s3 i rx tx rh : Bool) (env : Env) (fuel : Nat) (out : Exited),
      mainRun a s1 s2 s3 i rx tx rh env fuel = some out →
      ((out.handlersInstalled = true)
          ↔ (a && s1 && s2 && s3 && i && rx && tx && rh) = true)
      ∧ (out.monSt.isSome = true → out.handlersInstalled = true) := by
  intro a s1 s2 s3 i rx tx rh env fuel out h
  by_cases hb : (a && s1 && s2 && s3 && i && rx && tx && rh) = true
  · simp only [Bool.and_eq_true] at hb
    obtain ⟨⟨⟨⟨⟨⟨⟨rfl, rfl⟩, rfl⟩, rfl⟩, rfl⟩, rfl⟩, rfl⟩, rfl⟩ := hb
    rcases hm : monitorLoop env (env.timeAt 0) fuel initSt with st2 | ⟨tE, st2⟩ | st2 <;>
      rw [mainRun_eq_monitor] at h <;> simp only [hm] at h
    · exact absurd h (by simp)
    · obtain rfl := Option.some.inj h
      simp
    · obtain rfl := Option.some.inj h
      simp
  · have hb' : (a && s1 && s2 && s3 && i && rx && tx && rh) = false := by
      simpa using hb
    obtain ⟨_, hh, _, hmn⟩ := mainRun_early a s1 s2 s3 i rx tx rh env fuel out h hb'
    rw [hh, hmn, hb']
    simp

/-- Witness for C10 at a concrete input: with every stage successful the
handlers are installed. -/
theorem c10_witness :
    wOut.handlersInstalled = true ↔
      (true && true && true && true && true && true && true && true) = true :=
  (c10_thm true true true true true true true true wEnv 1 wOut rfl).1
